import Mathlib

/-!
Verification of the transmuter contract core: the asset-group registry
(asset_group.rs), the sudo swap dispatch (sudo.rs) and the legacy
supply/transmute entry points (contract.rs), over a shallow embedding.
Storage is threaded explicitly; fallible operations return Except.
-/

namespace Transmuter

/-- Errors of the contract (error.rs variants, as used by the embedded code). -/
inductive ContractError where
  | std (msg : String)
  | singleCoinExpected
  | insufficientTokenOut (required available : Nat)
  | excessiveRequiredTokenIn (limit required : Nat)
  | invalidTokenOutAmount (expected actual : Nat)
  | invalidTokenInAmount (expected actual : Nat)
  | assetGroupAlreadyExists (label : String)
  | assetGroupNotFound (label : String)
  | rateLimitExceeded (key : String) (previous attempted bound : Nat)
  | insufficientFund (denom : String) (required available : Nat)
  | invalidPoolAssetDenom (denom : String)
  deriving Repr, DecidableEq

deriving instance DecidableEq for Except

/-- Coin: a denomination together with an unsigned amount (cosmwasm Coin;
Uint128 amounts are modelled as Nat, no claim exercises 128-bit overflow). -/
structure Coin where
  denom : String
  amount : Nat
  deriving Repr, DecidableEq

/-- AssetGroup (asset_group.rs): an ordered denom list, duplicates permitted,
plus a corruption flag. -/
structure AssetGroup where
  denoms : List String
  is_corrupted : Bool
  deriving Repr, DecidableEq

/-- AssetGroup::new -/
def AssetGroup.new (denoms : List String) : AssetGroup :=
  { denoms := denoms, is_corrupted := false }

/-- AssetGroup::add_denoms: `self.denoms.extend(denoms)` -/
def AssetGroup.add_denoms (g : AssetGroup) (ds : List String) : AssetGroup :=
  { g with denoms := g.denoms ++ ds }

/-- AssetGroup::remove_denoms: `self.denoms.retain(|d| !denoms.contains(d))` -/
def AssetGroup.remove_denoms (g : AssetGroup) (ds : List String) : AssetGroup :=
  { g with denoms := g.denoms.filter (fun d => ! ds.contains d) }

/-- Corruptable::mark_as_corrupted for AssetGroup -/
def AssetGroup.mark_as_corrupted (g : AssetGroup) : AssetGroup :=
  { g with is_corrupted := true }

/-- Corruptable::unmark_as_corrupted for AssetGroup -/
def AssetGroup.unmark_as_corrupted (g : AssetGroup) : AssetGroup :=
  { g with is_corrupted := false }

/-- AssetGroups (asset_group.rs): `BTreeMap<String, AssetGroup>`, embedded as an
association list ordered by label (BTreeMap iterates lexicographically). -/
def AssetGroups := List (String × AssetGroup)

instance : DecidableEq AssetGroups := by
  unfold AssetGroups
  infer_instance

/-- AssetGroups::has: `self.0.contains_key(label)` -/
def AssetGroups.has (ags : AssetGroups) (label : String) : Bool :=
  ags.any (fun e => e.1 = label)

/-- Lookup of a label in the registry (BTreeMap::get). -/
def AssetGroups.lookupGroup (ags : AssetGroups) (label : String) : Option AssetGroup :=
  (ags.find? (fun e => e.1 = label)).map Prod.snd

/-- Ordered insertion of a fresh label (BTreeMap::insert; create_asset_group only
inserts labels that are not yet present). -/
def insertGroup (label : String) (g : AssetGroup) : AssetGroups → AssetGroups
  | [] => [(label, g)]
  | (l, g') :: rest =>
    if label < l then (label, g) :: (l, g') :: rest
    else (l, g') :: insertGroup label g rest

/-- Removal of a label (BTreeMap::remove). -/
def eraseGroup (label : String) : AssetGroups → AssetGroups
  | [] => []
  | (l, g) :: rest => if l = label then rest else (l, g) :: eraseGroup label rest

/-- In-place modification of the group under a label (BTreeMap::get_mut). -/
def modifyGroup (label : String) (f : AssetGroup → AssetGroup) : AssetGroups → AssetGroups
  | [] => []
  | (l, g) :: rest =>
    if l = label then (l, f g) :: rest else (l, g) :: modifyGroup label f rest

/-- AssetGroups::create_asset_group -/
def AssetGroups.create_asset_group (ags : AssetGroups) (label : String)
    (denoms : List String) : Except ContractError AssetGroups :=
  if ags.has label then .error (.assetGroupAlreadyExists label)
  else .ok (insertGroup label (AssetGroup.new denoms) ags)

/-- AssetGroups::remove_asset_group -/
def AssetGroups.remove_asset_group (ags : AssetGroups) (label : String) :
    Except ContractError AssetGroups :=
  if ags.has label then .ok (eraseGroup label ags)
  else .error (.assetGroupNotFound label)

/-- AssetGroups::mark_corrupted_asset_group -/
def AssetGroups.mark_corrupted_asset_group (ags : AssetGroups) (label : String) :
    Except ContractError AssetGroups :=
  if ags.has label then .ok (modifyGroup label AssetGroup.mark_as_corrupted ags)
  else .error (.assetGroupNotFound label)

/-- AssetGroups::unmark_corrupted_asset_group -/
def AssetGroups.unmark_corrupted_asset_group (ags : AssetGroups) (label : String) :
    Except ContractError AssetGroups :=
  if ags.has label then .ok (modifyGroup label AssetGroup.unmark_as_corrupted ags)
  else .error (.assetGroupNotFound label)

/-- TransmuterPool of the sudo-path generation: the list of pooled assets
(transmuter_pool is not under src/; its shape follows the spec: "ordered
denom→balance table"). -/
structure TransmuterPool where
  poolAssets : List Coin
  deriving Repr, DecidableEq

/-- Total pooled balance: sum of all pooled asset amounts. -/
def TransmuterPool.totalPoolAsset (pool : TransmuterPool) : Nat :=
  (pool.poolAssets.map Coin.amount).sum

/-- Membership of a denom among the pooled assets. -/
def TransmuterPool.hasDenom (pool : TransmuterPool) (d : String) : Bool :=
  pool.poolAssets.any (fun c => c.denom = d)

/-- Modelled from the spec: increasing a pooled asset's balance (part of the
missing transmuter_pool module); the denom must be known to the pool. -/
def TransmuterPool.increase (pool : TransmuterPool) (c : Coin) :
    Except ContractError TransmuterPool :=
  if pool.hasDenom c.denom then
    .ok ⟨pool.poolAssets.map
      (fun a => if a.denom = c.denom then ⟨a.denom, a.amount + c.amount⟩ else a)⟩
  else .error (.invalidPoolAssetDenom c.denom)

/-- Modelled from the spec: decreasing a pooled asset's balance (part of the
missing transmuter_pool module); "any subtraction that would underflow balances
fails with an insufficient-funds error", an unknown denom is an error. -/
def TransmuterPool.deduct (pool : TransmuterPool) (c : Coin) :
    Except ContractError TransmuterPool :=
  match pool.poolAssets.find? (fun a => a.denom = c.denom) with
  | none => .error (.invalidPoolAssetDenom c.denom)
  | some a =>
    if c.amount ≤ a.amount then
      .ok ⟨pool.poolAssets.map
        (fun b => if b.denom = c.denom then ⟨b.denom, b.amount - c.amount⟩ else b)⟩
    else .error (.insufficientFund c.denom c.amount a.amount)

/-- Scale of a cosmwasm Decimal: a fixed-point number with 18 fractional
digits, represented throughout by its atomics (value × 10^18) as a Nat. -/
def decimalOne : Nat := 10 ^ 18

/-- Modelled from the spec: `weights()` of the missing transmuter_pool module:
"returns None when total pooled balance is zero (no meaningful weight exists),
else the normalized weight map" — each balance divided by the total, as a
Decimal (`Decimal::from_ratio`, flooring integer division on atomics). -/
def TransmuterPool.weights (pool : TransmuterPool) : Option (List (String × Nat)) :=
  let total := pool.totalPoolAsset
  if total = 0 then none
  else some (pool.poolAssets.map (fun c => (c.denom, c.amount * decimalOne / total)))

/-- Modelled from the spec: one limiter window (the limiter module is not under
src/): "per tracked key, a time-windowed record of weight observations
used to bound the maximum allowed fractional change in weight"; the bound and
the observed weights are Decimal atomics. -/
structure LimiterEntry where
  bound : Nat
  windowSize : Nat
  observations : List (Nat × Nat)
  deriving Repr, DecidableEq

/-- Limiter state: ordered key→window table, one entry per tracked key. -/
def LimiterState := List (String × LimiterEntry)

instance : DecidableEq LimiterState := by
  unfold LimiterState
  infer_instance

/-- Lookup of a tracked key's window. -/
def lookupEntry (ls : LimiterState) (k : String) : Option LimiterEntry :=
  (ls.find? (fun e => e.1 = k)).map Prod.snd

/-- Observations lying within the trailing window ending at `now`. -/
def LimiterEntry.recentObservations (e : LimiterEntry) (now : Nat) : List Nat :=
  (e.observations.filter (fun o => now ≤ o.1 + e.windowSize)).map Prod.snd

/-- Modelled from the spec: "the maximum weight observed within the trailing
window ending at now"; none when the key has no prior observations. -/
def LimiterEntry.previousWeight (e : LimiterEntry) (now : Nat) : Option Nat :=
  match e.recentObservations now with
  | [] => none
  | o :: os => some (os.foldl max o)

/-- Absolute difference of two Decimal atomics (the absolute weight change). -/
def absDiff (a b : Nat) : Nat := if a ≤ b then b - a else a - b

/-- First pair of the batch whose weight change exceeds its key's bound
(untracked keys and keys with no prior observation are admitted). -/
def findViolation (ls : LimiterState) (pairs : List (String × Nat)) (now : Nat) :
    Option ContractError :=
  pairs.findSome? (fun p =>
    match lookupEntry ls p.1 with
    | none => none
    | some e =>
      match e.previousWeight now with
      | none => none
      | some prev =>
        if e.bound < absDiff p.2 prev then
          some (.rateLimitExceeded p.1 prev p.2 e.bound)
        else none)

/-- Record the new observation of every tracked key present in the batch. -/
def updateAllEntries (ls : LimiterState) (pairs : List (String × Nat)) (now : Nat) :
    LimiterState :=
  ls.map (fun e =>
    match pairs.lookup e.1 with
    | none => e
    | some w => (e.1, { e.2 with observations := e.2.observations ++ [(now, w)] }))

/-- Modelled from the spec: `check_limits_and_update(denom_weight_pairs, now)`
of the missing limiter module: "if the absolute change exceeds the configured
bound for that key, the entire batch is rejected ... and no key's window state
is mutated. If all keys pass, every key's window is updated with the new
observation in the same call" — computed all-or-nothing, per the spec's
staging-structure design note. -/
def check_limits_and_update (ls : LimiterState) (pairs : List (String × Nat))
    (now : Nat) : Except ContractError LimiterState :=
  match findViolation ls pairs now with
  | some err => .error err
  | none => .ok (updateAllEntries ls pairs now)

/-- Outbound effect descriptions produced by the dispatch (BankMsg::Send and
the tokenfactory mint/burn of the alloyed denom). -/
inductive CosmosMsg where
  | bankSend (toAddress : String) (amount : List Coin)
  | mint (coin : Coin) (mintToAddress : String)
  | burn (coin : Coin)
  deriving Repr, DecidableEq

/-- Response data payload (SwapExactAmountInResponseData /
SwapExactAmountOutResponseData of sudo.rs). -/
inductive ResponseData where
  | swapExactIn (token_out_amount : Nat)
  | swapExactOut (token_in_amount : Nat)
  deriving Repr, DecidableEq

/-- Response: method attribute, ordered outbound messages, and data payload. -/
structure Response where
  method : String
  messages : List CosmosMsg
  data : Option ResponseData
  deriving Repr, DecidableEq

/-- Persistent contract storage touched by the sudo swap paths: the pool item,
the alloyed denom, and the limiter windows. -/
structure Storage where
  pool : TransmuterPool
  alloyedDenom : String
  limiters : LimiterState
  deriving DecidableEq

/-- Modelled from the spec: `calc_out_given_in` (Swap Calculation is not under
src/): "the nominal counter-amount equals the input amount; the fee is deducted
from the amount the requester receives", rounding in favor of the pool; the
input balance grows by the full input and the output balance shrinks by the
token-out amount, underflow failing with an insufficient-funds error. -/
def calc_out_given_in (pool : TransmuterPool) (tokenIn : Coin)
    (tokenOutDenom : String) (swapFee : Nat) :
    Except ContractError (TransmuterPool × Coin) := do
  let outAmount := tokenIn.amount * (decimalOne - swapFee) / decimalOne
  let pool1 ← pool.increase tokenIn
  let pool2 ← pool1.deduct ⟨tokenOutDenom, outAmount⟩
  .ok (pool2, ⟨tokenOutDenom, outAmount⟩)

/-- Modelled from the spec: `calc_in_given_out` (Swap Calculation is not under
src/): the fee "is added to the amount the requester must pay", rounding in
favor of the pool; balances move as in `calc_out_given_in`. -/
def calc_in_given_out (pool : TransmuterPool) (tokenOut : Coin)
    (tokenInDenom : String) (swapFee : Nat) :
    Except ContractError (TransmuterPool × Coin) := do
  let inAmount := (tokenOut.amount * decimalOne + (decimalOne - swapFee) - 1)
    / (decimalOne - swapFee)
  let pool1 ← pool.increase ⟨tokenInDenom, inAmount⟩
  let pool2 ← pool1.deduct tokenOut
  .ok (pool2, ⟨tokenInDenom, inAmount⟩)

/-- Limiter gate shared by every committing swap path: skipped when the pool
reports no weights (total balance zero), otherwise the batch check-and-update
over the full post-swap weight map. -/
def limitersGate (ls : LimiterState) (pool : TransmuterPool) (now : Nat) :
    Except ContractError LimiterState :=
  match pool.weights with
  | none => .ok ls
  | some pairs => check_limits_and_update ls pairs now

/-- Modelled from the spec: `swap_alloyed_asset_for_tokens` (the sudo-path
Transmuter impl is not under src/): burn the alloyed shares sent and "release
token_out directly" — deduct each requested coin from the pool, run the limiter
over the post-swap weights, commit the pool, and order the burn followed by the
bank send to the sender. -/
def swapAlloyedAssetForTokens (st : Storage) (method : String) (sender : String)
    (burnCoin : Coin) (tokensOut : List Coin) (now : Nat) :
    Except ContractError (Storage × Response) := do
  let pool ← tokensOut.foldlM TransmuterPool.deduct st.pool
  let limiters ← limitersGate st.limiters pool now
  .ok ({ st with pool := pool, limiters := limiters },
    { method := method
      messages := [.burn burnCoin, .bankSend sender tokensOut]
      data := none })

/-- Modelled from the spec: `swap_tokens_for_alloyed_asset` (the sudo-path
Transmuter impl is not under src/): "mint shares to the sender for the supplied
asset" 1:1 — increase the pool by each supplied coin, run the limiter over the
post-swap weights, commit, and order the mint to the sender. -/
def swapTokensForAlloyedAsset (st : Storage) (method : String) (sender : String)
    (tokensIn : List Coin) (now : Nat) :
    Except ContractError (Storage × Response) := do
  let pool ← tokensIn.foldlM TransmuterPool.increase st.pool
  let limiters ← limitersGate st.limiters pool now
  .ok ({ st with pool := pool, limiters := limiters },
    { method := method
      messages := [.mint ⟨st.alloyedDenom, (tokensIn.map Coin.amount).sum⟩ sender]
      data := none })

/-- SudoMsg::dispatch, SwapExactAmountIn arm (sudo.rs lines 54-165): build
token_out at parity, bounds-check against token_out_min_amount, route on the
alloyed denom, otherwise calc, assert parity, gate on the limiters and save.
Storage is returned alongside the outcome; every error path hands back the
incoming storage. -/
def swapExactAmountIn (st : Storage) (sender : String) (tokenIn : Coin)
    (tokenOutDenom : String) (tokenOutMinAmount : Nat) (swapFee : Nat)
    (now : Nat) : Storage × Except ContractError Response :=
  let alloyedDenom := st.alloyedDenom
  let tokenOut : Coin := ⟨tokenOutDenom, tokenIn.amount⟩
  if tokenOut.amount < tokenOutMinAmount then
    (st, .error (.insufficientTokenOut tokenOutMinAmount tokenOut.amount))
  else if tokenIn.denom = alloyedDenom then
    match swapAlloyedAssetForTokens st "swap_exact_amount_in" sender tokenIn
        [tokenOut] now with
    | .error e => (st, .error e)
    | .ok (st', res) =>
      (st', .ok { res with data := some (.swapExactIn tokenOut.amount) })
  else if tokenOut.denom = alloyedDenom then
    match swapTokensForAlloyedAsset st "swap_exact_amount_in" sender [tokenIn]
        now with
    | .error e => (st, .error e)
    | .ok (st', res) =>
      (st', .ok { res with data := some (.swapExactIn tokenOut.amount) })
  else
    match calc_out_given_in st.pool tokenIn tokenOut.denom swapFee with
    | .error e => (st, .error e)
    | .ok (pool, actualTokenOut) =>
      if tokenOut = actualTokenOut then
        match limitersGate st.limiters pool now with
        | .error e => (st, .error e)
        | .ok limiters =>
          ({ st with pool := pool, limiters := limiters },
           .ok { method := "swap_exact_amount_in"
                 messages := [.bankSend sender [tokenOut]]
                 data := some (.swapExactIn tokenOut.amount) })
      else
        (st, .error (.invalidTokenOutAmount tokenOut.amount actualTokenOut.amount))

/-- SudoMsg::dispatch, SwapExactAmountOut arm (sudo.rs lines 166-277): build
token_in at parity, bounds-check against token_in_max_amount, route on the
alloyed denom, otherwise calc, assert parity, gate on the limiters and save. -/
def swapExactAmountOut (st : Storage) (sender : String) (tokenInDenom : String)
    (tokenInMaxAmount : Nat) (tokenOut : Coin) (swapFee : Nat)
    (now : Nat) : Storage × Except ContractError Response :=
  let alloyedDenom := st.alloyedDenom
  let tokenIn : Coin := ⟨tokenInDenom, tokenOut.amount⟩
  if tokenInMaxAmount < tokenIn.amount then
    (st, .error (.excessiveRequiredTokenIn tokenInMaxAmount tokenIn.amount))
  else if tokenIn.denom = alloyedDenom then
    match swapAlloyedAssetForTokens st "swap_exact_amount_out" sender tokenIn
        [tokenOut] now with
    | .error e => (st, .error e)
    | .ok (st', res) =>
      (st', .ok { res with data := some (.swapExactOut tokenIn.amount) })
  else if tokenOut.denom = alloyedDenom then
    match swapTokensForAlloyedAsset st "swap_exact_amount_out" sender [tokenIn]
        now with
    | .error e => (st, .error e)
    | .ok (st', res) =>
      (st', .ok { res with data := some (.swapExactOut tokenIn.amount) })
  else
    match calc_in_given_out st.pool tokenOut tokenIn.denom swapFee with
    | .error e => (st, .error e)
    | .ok (pool, actualTokenIn) =>
      if tokenIn = actualTokenIn then
        match limitersGate st.limiters pool now with
        | .error e => (st, .error e)
        | .ok limiters =>
          ({ st with pool := pool, limiters := limiters },
           .ok { method := "swap_exact_amount_out"
                 messages := [.bankSend sender [tokenOut]]
                 data := some (.swapExactOut actualTokenIn.amount) })
      else
        (st, .error (.invalidTokenInAmount tokenIn.amount actualTokenIn.amount))

/-- Modelled from the spec: the legacy two-asset TransmuterPool used by
contract.rs (its transmuter_pool module is not under src/): one configured
input denom and one output denom, each with a balance. -/
structure LegacyPool where
  inDenom : String
  outDenom : String
  inBalance : Nat
  outBalance : Nat
  deriving Repr, DecidableEq

/-- Modelled from the spec: legacy `pool.supply(coin)`: "increases that asset's
balance; fails if ... the denom is unknown to the pool". -/
def LegacyPool.supply (p : LegacyPool) (c : Coin) : Except ContractError LegacyPool :=
  if c.denom = p.inDenom then .ok { p with inBalance := p.inBalance + c.amount }
  else if c.denom = p.outDenom then .ok { p with outBalance := p.outBalance + c.amount }
  else .error (.invalidPoolAssetDenom c.denom)

/-- Modelled from the spec: legacy `pool.transmute(coin)`: "decreases the input
denom's counterpart balance and returns the full amount in the configured
output denom at parity; fails if ... liquidity is insufficient". -/
def LegacyPool.transmute (p : LegacyPool) (c : Coin) :
    Except ContractError (LegacyPool × Coin) :=
  if c.denom = p.inDenom then
    if c.amount ≤ p.outBalance then
      .ok ({ p with inBalance := p.inBalance + c.amount
                    outBalance := p.outBalance - c.amount },
           ⟨p.outDenom, c.amount⟩)
    else .error (.insufficientFund p.outDenom c.amount p.outBalance)
  else .error (.invalidPoolAssetDenom c.denom)

/-- Legacy persistent storage: the single pool item of contract.rs. -/
structure LegacyStorage where
  pool : LegacyPool
  deriving Repr, DecidableEq

/-- Transmuter::supply (contract.rs lines 49-69): ensure the attached funds
hold exactly one coin (a generic std error otherwise), then update the pool
with that coin. The pool is only loaded and written after the funds check. -/
def supplyExec (st : LegacyStorage) (funds : List Coin) :
    LegacyStorage × Except ContractError Response :=
  match funds with
  | [f] =>
    match st.pool.supply f with
    | .error e => (st, .error e)
    | .ok pool =>
      (⟨pool⟩, .ok { method := "supply", messages := [], data := none })
  | _ =>
    (st, .error (.std "supply requires funds to have exactly one denom"))

/-- Transmuter::transmute (contract.rs lines 71-94): ensure the attached funds
hold exactly one coin (SingleCoinExpected otherwise), then transmute it, save
the pool and order the bank send of the out coin to the sender. -/
def transmuteExec (st : LegacyStorage) (sender : String) (funds : List Coin) :
    LegacyStorage × Except ContractError Response :=
  match funds with
  | [f] =>
    match st.pool.transmute f with
    | .error e => (st, .error e)
    | .ok (pool, outCoin) =>
      (⟨pool⟩, .ok { method := "transmute"
                     messages := [.bankSend sender [outCoin]]
                     data := none })
  | _ => (st, .error .singleCoinExpected)

/-- Two-asset fixture pool: denoms A and B, each with balance 1,000,000. -/
def poolAB : TransmuterPool := ⟨[⟨"A", 1000000⟩, ⟨"B", 1000000⟩]⟩

/-- Fixture storage: pool `poolAB`, alloyed denom C, no limiters configured. -/
def stAB : Storage := ⟨poolAB, "C", []⟩

/-- C1: on a pool holding denoms A and B with balance 1,000,000 each and
alloyed denom C, SwapExactAmountIn of 500 A for B at fee 0 succeeds, returns
token_out_amount 500, commits balances A = 1,000,500 and B = 999,500, and
orders a bank send of exactly 500 B to the sender. -/
theorem swap_exact_in_parity_scenario :
    swapExactAmountIn stAB "sender" ⟨"A", 500⟩ "B" 0 0 0 =
      (⟨⟨[⟨"A", 1000500⟩, ⟨"B", 999500⟩]⟩, "C", []⟩,
       .ok { method := "swap_exact_amount_in"
             messages := [.bankSend "sender" [⟨"B", 500⟩]]
             data := some (.swapExactIn 500) }) := by
  decide

/-- C4: on every SwapExactAmountIn — the bounds check precedes the routing on
the alloyed denom, so on all three paths — a token_out amount (which equals the
token_in amount) below token_out_min_amount fails with InsufficientTokenOut
carrying required = token_out_min_amount and available = token_out amount,
leaving storage untouched. -/
theorem swap_exact_in_min_out_check (st : Storage) (sender : String)
    (tokenIn : Coin) (tokenOutDenom : String) (minAmount : Nat) (fee : Nat)
    (now : Nat) (h : tokenIn.amount < minAmount) :
    swapExactAmountIn st sender tokenIn tokenOutDenom minAmount fee now =
      (st, .error (.insufficientTokenOut minAmount tokenIn.amount)) := by
  unfold swapExactAmountIn
  simp [h]

/-- Witness for C4: swapping 500 in with min_out 1000 fails with
InsufficientTokenOut required 1000, available 500. -/
theorem swap_exact_in_min_out_check_witness :
    (500 < 1000) ∧
    swapExactAmountIn stAB "user" ⟨"A", 500⟩ "B" 1000 0 0 =
      (stAB, .error (.insufficientTokenOut 1000 500)) :=
  ⟨by decide, swap_exact_in_min_out_check stAB "user" ⟨"A", 500⟩ "B" 1000 0 0
    (by decide)⟩

/-- C5: on every SwapExactAmountOut — the bounds check precedes the routing on
the alloyed denom, so on all three paths — a required token_in amount (which
equals the token_out amount) above token_in_max_amount fails with
ExcessiveRequiredTokenIn carrying limit = token_in_max_amount and
required = token_in amount, leaving storage untouched. -/
theorem swap_exact_out_max_in_check (st : Storage) (sender : String)
    (tokenInDenom : String) (maxAmount : Nat) (tokenOut : Coin) (fee : Nat)
    (now : Nat) (h : maxAmount < tokenOut.amount) :
    swapExactAmountOut st sender tokenInDenom maxAmount tokenOut fee now =
      (st, .error (.excessiveRequiredTokenIn maxAmount tokenOut.amount)) := by
  unfold swapExactAmountOut
  simp [h]

/-- Witness for C5: requesting 1000 out with max_in 500 fails with
ExcessiveRequiredTokenIn limit 500, required 1000. -/
theorem swap_exact_out_max_in_check_witness :
    (500 < 1000) ∧
    swapExactAmountOut stAB "user" "B" 500 ⟨"A", 1000⟩ 0 0 =
      (stAB, .error (.excessiveRequiredTokenIn 500 1000)) :=
  ⟨by decide, swap_exact_out_max_in_check stAB "user" "B" 500 ⟨"A", 1000⟩ 0 0
    (by decide)⟩

/-- C10: the legacy supply and transmute entry points fail whenever the number
of attached coins differs from one (zero included): supply with the generic std
error "supply requires funds to have exactly one denom", transmute with
SingleCoinExpected; the two errors differ, and in both cases the returned
storage is exactly the incoming storage (the pool is never loaded or written
before the funds check passes). -/
theorem legacy_single_coin_guard (st : LegacyStorage) (sender : String)
    (funds : List Coin) (h : funds.length ≠ 1) :
    supplyExec st funds =
      (st, .error (.std "supply requires funds to have exactly one denom")) ∧
    transmuteExec st sender funds = (st, .error .singleCoinExpected) ∧
    ContractError.std "supply requires funds to have exactly one denom" ≠
      ContractError.singleCoinExpected := by
  rcases funds with _ | ⟨a, _ | ⟨b, t⟩⟩
  · exact ⟨rfl, rfl, by decide⟩
  · simp at h
  · exact ⟨rfl, rfl, by decide⟩

/-- Witness for C10: with zero attached coins both entry points fail, with
distinct errors, and the pool is unchanged. -/
theorem legacy_single_coin_guard_witness :
    (([] : List Coin).length ≠ 1) ∧
    (supplyExec ⟨⟨"in", "out", 5, 7⟩⟩ [] =
      (⟨⟨"in", "out", 5, 7⟩⟩,
       .error (.std "supply requires funds to have exactly one denom")) ∧
     transmuteExec ⟨⟨"in", "out", 5, 7⟩⟩ "user" [] =
      (⟨⟨"in", "out", 5, 7⟩⟩, .error .singleCoinExpected) ∧
     ContractError.std "supply requires funds to have exactly one denom" ≠
       ContractError.singleCoinExpected) :=
  ⟨by decide, legacy_single_coin_guard ⟨⟨"in", "out", 5, 7⟩⟩ "user" [] (by decide)⟩

/-- C8: add_denoms appends the given list at the end (insertion order kept,
duplicates permitted); remove_denoms keeps a sublist of the original (relative
order preserved, nothing reordered), drops every occurrence of each named
denom, keeps the exact multiplicity of every other denom, and is the identity
when the named denoms are disjoint from the group's list. -/
theorem asset_group_denom_list_fidelity (g : AssetGroup) (ds es : List String) :
    (g.add_denoms ds).denoms = g.denoms ++ ds ∧
    (g.remove_denoms es).denoms.Sublist g.denoms ∧
    (∀ d ∈ es, d ∉ (g.remove_denoms es).denoms) ∧
    (∀ d, d ∉ es → (g.remove_denoms es).denoms.count d = g.denoms.count d) ∧
    ((∀ d ∈ es, d ∉ g.denoms) → g.remove_denoms es = g) := by
  refine ⟨rfl, List.filter_sublist _, ?_, ?_, ?_⟩
  · intro d hd hmem
    simp only [AssetGroup.remove_denoms, List.mem_filter, List.contains,
      List.elem_eq_mem, Bool.not_eq_true', decide_eq_false_iff_not] at hmem
    exact hmem.2 hd
  · intro d hd
    simp only [AssetGroup.remove_denoms]
    refine List.count_filter ?_
    simp only [List.contains, List.elem_eq_mem, Bool.not_eq_true',
      decide_eq_false_iff_not]
    exact hd
  · intro hdisj
    have hfil : g.denoms.filter (fun d => ! es.contains d) = g.denoms := by
      refine List.filter_eq_self.mpr ?_
      intro d hd
      simp only [List.contains, List.elem_eq_mem, Bool.not_eq_true',
        decide_eq_false_iff_not]
      exact fun hmem => hdisj d hmem hd
    simp only [AssetGroup.remove_denoms, hfil]

/-- Witness for C8: on a concrete group, removing a disjoint denom set is the
identity (disjointness discharged concretely). -/
theorem asset_group_denom_list_fidelity_witness :
    (∀ d ∈ ["x", "y"], d ∉ ["denom1", "denom2"]) ∧
    AssetGroup.remove_denoms ⟨["denom1", "denom2"], false⟩ ["x", "y"] =
      ⟨["denom1", "denom2"], false⟩ :=
  ⟨by decide,
   (asset_group_denom_list_fidelity ⟨["denom1", "denom2"], false⟩ [] ["x", "y"]).2.2.2.2
     (by decide)⟩

theorem has_iff_mem_keys (ags : AssetGroups) (L : String) :
    ags.has L = true ↔ L ∈ ags.map Prod.fst := by
  simp [AssetGroups.has, List.any_eq_true, List.mem_map]

theorem lookup_some_of_has (ags : AssetGroups) (L : String) (h : ags.has L = true) :
    ∃ g, ags.lookupGroup L = some g := by
  unfold AssetGroups.lookupGroup
  have hs : (ags.find? (fun e => e.1 = L)).isSome := by
    rw [List.find?_isSome]
    unfold AssetGroups.has at h
    simpa [List.any_eq_true] using h
  obtain ⟨x, hx⟩ := Option.isSome_iff_exists.mp hs
  exact ⟨x.2, by rw [hx]; rfl⟩

theorem lookup_modifyGroup (ags : AssetGroups) (L : String)
    (f : AssetGroup → AssetGroup) :
    (modifyGroup L f ags).lookupGroup L = (ags.lookupGroup L).map f := by
  induction ags with
  | nil => rfl
  | cons e rest ih =>
    obtain ⟨l, g⟩ := e
    by_cases h : l = L
    · subst h
      simp [modifyGroup, AssetGroups.lookupGroup, List.find?_cons]
    · simp only [modifyGroup, h, if_false, AssetGroups.lookupGroup,
        List.find?_cons, decide_eq_true_eq] at *
      simpa [h] using ih

theorem has_modifyGroup (ags : AssetGroups) (L L' : String)
    (f : AssetGroup → AssetGroup) :
    (modifyGroup L f ags).has L' = ags.has L' := by
  induction ags with
  | nil => rfl
  | cons e rest ih =>
    obtain ⟨l, g⟩ := e
    by_cases h : l = L
    · subst h
      simp [modifyGroup, AssetGroups.has]
    · simp only [modifyGroup, h, if_false, AssetGroups.has, List.any_cons] at *
      rw [ih]

theorem has_insertGroup (ags : AssetGroups) (L : String) (g : AssetGroup) :
    (insertGroup L g ags).has L = true := by
  induction ags with
  | nil => simp [insertGroup, AssetGroups.has]
  | cons e rest ih =>
    obtain ⟨l, g'⟩ := e
    by_cases h : L < l
    · simp [insertGroup, h, AssetGroups.has]
    · simp only [insertGroup, h, if_false, AssetGroups.has, List.any_cons] at *
      rw [ih, Bool.or_true]

theorem lookup_insertGroup (ags : AssetGroups) (L : String) (g : AssetGroup)
    (h : ags.has L = false) :
    (insertGroup L g ags).lookupGroup L = some g := by
  induction ags with
  | nil => simp [insertGroup, AssetGroups.lookupGroup, List.find?_cons]
  | cons e rest ih =>
    obtain ⟨l, g'⟩ := e
    simp only [AssetGroups.has, List.any_cons, Bool.or_eq_false_iff,
      decide_eq_false_iff_not] at h
    by_cases hlt : L < l
    · simp [insertGroup, hlt, AssetGroups.lookupGroup, List.find?_cons]
    · have ih' := ih (by simpa [AssetGroups.has] using h.2)
      simp only [insertGroup, hlt, if_false, AssetGroups.lookupGroup,
        List.find?_cons] at *
      have hne : (decide (l = L)) = false := by
        simpa using fun hq => h.1 hq
      rw [hne]
      exact ih'

theorem has_eraseGroup_of_nodup (ags : AssetGroups) (L : String)
    (hnd : (ags.map Prod.fst).Nodup) : (eraseGroup L ags).has L = false := by
  induction ags with
  | nil => rfl
  | cons e rest ih =>
    obtain ⟨l, g⟩ := e
    simp only [List.map_cons, List.nodup_cons] at hnd
    by_cases h : l = L
    · subst h
      simp only [eraseGroup, if_pos rfl]
      rw [Bool.eq_false_iff]
      intro hc
      exact hnd.1 ((has_iff_mem_keys rest l).mp hc)
    · simp only [eraseGroup, h, if_false, AssetGroups.has, List.any_cons]
      have := ih hnd.2
      simp only [AssetGroups.has] at this
      simp [this, h]

/-- C7: create_asset_group fails with AssetGroupAlreadyExists on a present
label and otherwise inserts a group with is_corrupted = false and the verbatim
denom list; creating the same label twice without removal fails on the second
call; remove_asset_group fails with AssetGroupNotFound on an absent label; and
removing a present label then recreating it succeeds. -/
theorem asset_group_registry_lifecycle :
    (∀ (ags : AssetGroups) (L : String) (ds : List String),
      ags.has L = true →
      ags.create_asset_group L ds = .error (.assetGroupAlreadyExists L)) ∧
    (∀ (ags : AssetGroups) (L : String) (ds : List String),
      ags.has L = false →
      ∃ ags', ags.create_asset_group L ds = .ok ags' ∧
        ags'.lookupGroup L = some ⟨ds, false⟩) ∧
    (∀ (ags : AssetGroups) (L : String) (ds ds' : List String) (ags' : AssetGroups),
      ags.create_asset_group L ds = .ok ags' →
      ags'.create_asset_group L ds' = .error (.assetGroupAlreadyExists L)) ∧
    (∀ (ags : AssetGroups) (L : String),
      ags.has L = false →
      ags.remove_asset_group L = .error (.assetGroupNotFound L)) ∧
    (∀ (ags : AssetGroups) (L : String) (ds : List String),
      (ags.map Prod.fst).Nodup → ags.has L = true →
      ∃ ags' ags'', ags.remove_asset_group L = .ok ags' ∧
        ags'.create_asset_group L ds = .ok ags'') := by
  refine ⟨?_, ?_, ?_, ?_, ?_⟩
  · intro ags L ds h
    simp [AssetGroups.create_asset_group, h]
  · intro ags L ds h
    refine ⟨insertGroup L (AssetGroup.new ds) ags, ?_, ?_⟩
    · simp [AssetGroups.create_asset_group, h]
    · exact lookup_insertGroup ags L _ h
  · intro ags L ds ds' ags' h
    have hnot : ags.has L = false := by
      by_contra hc
      simp only [Bool.not_eq_false] at hc
      simp [AssetGroups.create_asset_group, hc] at h
    simp only [AssetGroups.create_asset_group, hnot, Bool.false_eq_true,
      if_false, Except.ok.injEq] at h
    subst h
    simp [AssetGroups.create_asset_group, has_insertGroup]
  · intro ags L h
    simp [AssetGroups.remove_asset_group, h]
  · intro ags L ds hnd h
    refine ⟨eraseGroup L ags, ⟨insertGroup L (AssetGroup.new ds) (eraseGroup L ags), ?_, ?_⟩⟩
    · simp [AssetGroups.remove_asset_group, h]
    · simp [AssetGroups.create_asset_group, has_eraseGroup_of_nodup ags L hnd]

/-- Witness for C7: creating a label twice without removal yields the
already-exists error on the second call (first creation discharged concretely). -/
theorem asset_group_registry_lifecycle_witness :
    (AssetGroups.create_asset_group [] "grp" ["d1"] =
      .ok [("grp", ⟨["d1"], false⟩)]) ∧
    AssetGroups.create_asset_group [("grp", ⟨["d1"], false⟩)] "grp" ["d2"] =
      .error (.assetGroupAlreadyExists "grp") :=
  ⟨by decide,
   asset_group_registry_lifecycle.2.2.1 [] "grp" ["d1"] ["d2"]
     [("grp", ⟨["d1"], false⟩)] (by decide)⟩

/-- C9: mark_corrupted_asset_group and unmark_corrupted_asset_group fail with
AssetGroupNotFound on an absent label; on a present label neither ever errors,
marking is idempotent (twice still leaves is_corrupted = true), and unmarking
after marking returns the flag to false. -/
theorem asset_group_corruption_idempotence :
    (∀ (ags : AssetGroups) (L : String),
      ags.has L = false →
      ags.mark_corrupted_asset_group L = .error (.assetGroupNotFound L) ∧
      ags.unmark_corrupted_asset_group L = .error (.assetGroupNotFound L)) ∧
    (∀ (ags : AssetGroups) (L : String),
      ags.has L = true →
      ∃ ags1 ags2 ags3,
        ags.mark_corrupted_asset_group L = .ok ags1 ∧
        (ags1.lookupGroup L).map AssetGroup.is_corrupted = some true ∧
        ags1.mark_corrupted_asset_group L = .ok ags2 ∧
        (ags2.lookupGroup L).map AssetGroup.is_corrupted = some true ∧
        ags2.unmark_corrupted_asset_group L = .ok ags3 ∧
        (ags3.lookupGroup L).map AssetGroup.is_corrupted = some false) := by
  constructor
  · intro ags L h
    constructor <;>
      simp [AssetGroups.mark_corrupted_asset_group,
        AssetGroups.unmark_corrupted_asset_group, h]
  · intro ags L h
    obtain ⟨g, hg⟩ := lookup_some_of_has ags L h
    have h1 : (modifyGroup L AssetGroup.mark_as_corrupted ags).has L = true := by
      rw [has_modifyGroup]; exact h
    have h2 : (modifyGroup L AssetGroup.mark_as_corrupted
        (modifyGroup L AssetGroup.mark_as_corrupted ags)).has L = true := by
      rw [has_modifyGroup, has_modifyGroup]; exact h
    refine ⟨modifyGroup L AssetGroup.mark_as_corrupted ags,
      modifyGroup L AssetGroup.mark_as_corrupted
        (modifyGroup L AssetGroup.mark_as_corrupted ags),
      modifyGroup L AssetGroup.unmark_as_corrupted
        (modifyGroup L AssetGroup.mark_as_corrupted
          (modifyGroup L AssetGroup.mark_as_corrupted ags)),
      ?_, ?_, ?_, ?_, ?_, ?_⟩
    · simp [AssetGroups.mark_corrupted_asset_group, h]
    · rw [lookup_modifyGroup, hg]; rfl
    · simp [AssetGroups.mark_corrupted_asset_group, h1]
    · rw [lookup_modifyGroup, lookup_modifyGroup, hg]; rfl
    · simp [AssetGroups.unmark_corrupted_asset_group, h2]
    · rw [lookup_modifyGroup, lookup_modifyGroup, lookup_modifyGroup, hg]; rfl

/-- Witness for C9: on a registry holding one group, mark then mark then unmark
all succeed and end with the corruption flag back at false. -/
theorem asset_group_corruption_idempotence_witness :
    (AssetGroups.has [("grp", ⟨["d1"], false⟩)] "grp" = true) ∧
    ∃ ags1 ags2 ags3,
      AssetGroups.mark_corrupted_asset_group [("grp", ⟨["d1"], false⟩)] "grp" =
        .ok ags1 ∧
      (ags1.lookupGroup "grp").map AssetGroup.is_corrupted = some true ∧
      ags1.mark_corrupted_asset_group "grp" = .ok ags2 ∧
      (ags2.lookupGroup "grp").map AssetGroup.is_corrupted = some true ∧
      ags2.unmark_corrupted_asset_group "grp" = .ok ags3 ∧
      (ags3.lookupGroup "grp").map AssetGroup.is_corrupted = some false :=
  ⟨by decide,
   asset_group_corruption_idempotence.2 [("grp", ⟨["d1"], false⟩)] "grp" (by decide)⟩

/-- C2: whenever SwapExactAmountIn or SwapExactAmountOut returns an error — at
the bounds check, the parity assertion, the calculation or the limiter check —
the storage handed back is exactly the incoming storage: the pool (and the
limiter windows) are saved only after every check has passed. -/
theorem swap_error_no_state_change :
    (∀ (st : Storage) (sender : String) (tokenIn : Coin) (tokenOutDenom : String)
      (minAmount fee now : Nat) (st' : Storage) (e : ContractError),
      swapExactAmountIn st sender tokenIn tokenOutDenom minAmount fee now =
        (st', .error e) → st' = st) ∧
    (∀ (st : Storage) (sender : String) (tokenInDenom : String)
      (maxAmount : Nat) (tokenOut : Coin) (fee now : Nat) (st' : Storage)
      (e : ContractError),
      swapExactAmountOut st sender tokenInDenom maxAmount tokenOut fee now =
        (st', .error e) → st' = st) := by
  constructor
  · intro st sender tokenIn tokenOutDenom minAmount fee now st' e h
    unfold swapExactAmountIn at h
    dsimp only at h
    split_ifs at h <;> repeat' split at h
    all_goals rw [Prod.mk.injEq] at h
    all_goals try exact h.1.symm
    all_goals simp_all
  · intro st sender tokenInDenom maxAmount tokenOut fee now st' e h
    unfold swapExactAmountOut at h
    dsimp only at h
    split_ifs at h <;> repeat' split at h
    all_goals rw [Prod.mk.injEq] at h
    all_goals try exact h.1.symm
    all_goals simp_all

/-- Witness for C2: a failed min-out bounds check hands back the incoming
storage unchanged. -/
theorem swap_error_no_state_change_witness :
    (swapExactAmountIn stAB "user" ⟨"A", 500⟩ "B" 1000 0 0 =
      (stAB, .error (.insufficientTokenOut 1000 500))) ∧ stAB = stAB :=
  ⟨by decide,
   swap_error_no_state_change.1 stAB "user" ⟨"A", 500⟩ "B" 1000 0 0 stAB
     (.insufficientTokenOut 1000 500) (by decide)⟩

theorem lookup_updateAllEntries (ls : LimiterState) (pairs : List (String × Nat))
    (now : Nat) (k : String) (w : Nat) (e : LimiterEntry)
    (hw : pairs.lookup k = some w) (he : lookupEntry ls k = some e) :
    lookupEntry (updateAllEntries ls pairs now) k =
      some { e with observations := e.observations ++ [(now, w)] } := by
  induction ls with
  | nil => simp [lookupEntry] at he
  | cons p rest ih =>
    obtain ⟨l, en⟩ := p
    by_cases h : l = k
    · subst h
      obtain rfl : en = e := by
        simpa [lookupEntry, List.find?_cons] using he
      simp [updateAllEntries, lookupEntry, List.find?_cons, hw]
    · have he' : lookupEntry rest k = some e := by
        simpa [lookupEntry, List.find?_cons, h] using he
      have ih' := ih he'
      simp only [updateAllEntries, List.map_cons] at ih' ⊢
      cases hpl : List.lookup l pairs <;>
        simpa [lookupEntry, List.find?_cons, h, hpl] using ih'

/-- C3: check_limits_and_update is atomic over its batch: if any pair of the
batch names a tracked key with a prior in-window observation whose weight
change exceeds that key's bound, the whole call returns a rate-limit error (so
no window is written); if every tracked pair is within bound, the call
succeeds and every tracked key named by the batch has its window extended with
the new observation in that same call. -/
theorem limiter_batch_atomicity :
    (∀ (ls : LimiterState) (pairs : List (String × Nat)) (now : Nat)
      (k : String) (w : Nat) (e : LimiterEntry) (prev : Nat),
      (k, w) ∈ pairs →
      lookupEntry ls k = some e →
      e.previousWeight now = some prev →
      e.bound < absDiff w prev →
      ∃ k' p' a' b', check_limits_and_update ls pairs now =
        .error (.rateLimitExceeded k' p' a' b')) ∧
    (∀ (ls : LimiterState) (pairs : List (String × Nat)) (now : Nat),
      (∀ (k : String) (w : Nat) (e : LimiterEntry) (prev : Nat),
        (k, w) ∈ pairs →
        lookupEntry ls k = some e →
        e.previousWeight now = some prev →
        absDiff w prev ≤ e.bound) →
      check_limits_and_update ls pairs now = .ok (updateAllEntries ls pairs now) ∧
      ∀ (k : String) (w : Nat) (e : LimiterEntry),
        pairs.lookup k = some w →
        lookupEntry ls k = some e →
        lookupEntry (updateAllEntries ls pairs now) k =
          some { e with observations := e.observations ++ [(now, w)] }) := by
  constructor
  · intro ls pairs now k w e prev hmem hlk hprev hbound
    cases hv : findViolation ls pairs now with
    | none =>
      exfalso
      unfold findViolation at hv
      have hnone := List.findSome?_eq_none_iff.mp hv (k, w) hmem
      simp [hlk, hprev, hbound] at hnone
    | some err =>
      obtain ⟨p, hp, hfp⟩ := List.exists_of_findSome?_eq_some hv
      refine ⟨p.1, ?_⟩
      rcases hle : lookupEntry ls p.1 with _ | e'
      · simp only [hle] at hfp
        exact Option.noConfusion hfp
      · simp only [hle] at hfp
        rcases hpw : e'.previousWeight now with _ | pv
        · simp only [hpw] at hfp
          exact Option.noConfusion hfp
        · simp only [hpw] at hfp
          by_cases hb : e'.bound < absDiff p.2 pv
          · rw [if_pos hb] at hfp
            refine ⟨pv, p.2, e'.bound, ?_⟩
            unfold check_limits_and_update
            rw [hv]
            injection hfp with hfp
            rw [← hfp]
          · rw [if_neg hb] at hfp; simp at hfp
  · intro ls pairs now hall
    have hv : findViolation ls pairs now = none := by
      unfold findViolation
      rw [List.findSome?_eq_none_iff]
      intro p hp
      rcases hle : lookupEntry ls p.1 with _ | e'
      · simp [hle]
      · rcases hpw : e'.previousWeight now with _ | pv
        · simp [hle, hpw]
        · have hb := hall p.1 p.2 e' pv hp hle hpw
          simp [hle, hpw]
          omega
    refine ⟨?_, ?_⟩
    · unfold check_limits_and_update
      rw [hv]
    · intro k w e hw he
      exact lookup_updateAllEntries ls pairs now k w e hw he

/-- Witness for C3: a batch whose single key moves within bound passes and
appends the new observation to that key's window. -/
theorem limiter_batch_atomicity_witness :
    check_limits_and_update [("A", ⟨10, 100, [(0, 500)]⟩)] [("A", 505)] 50 =
      .ok (updateAllEntries [("A", ⟨10, 100, [(0, 500)]⟩)] [("A", 505)] 50) ∧
    lookupEntry (updateAllEntries [("A", ⟨10, 100, [(0, 500)]⟩)] [("A", 505)] 50)
        "A" = some ⟨10, 100, [(0, 500), (50, 505)]⟩ := by
  have h := limiter_batch_atomicity.2 [("A", ⟨10, 100, [(0, 500)]⟩)]
    [("A", 505)] 50 ?_
  · exact ⟨h.1, h.2 "A" 505 ⟨10, 100, [(0, 500)]⟩ rfl rfl⟩
  · intro k w e prev hmem hlk hprev
    simp only [List.mem_cons, List.not_mem_nil, or_false] at hmem
    rw [Prod.ext_iff] at hmem
    obtain ⟨rfl, rfl⟩ := hmem
    have hc : lookupEntry [("A", (⟨10, 100, [(0, 500)]⟩ : LimiterEntry))] "A" =
        some ⟨10, 100, [(0, 500)]⟩ := rfl
    rw [hc, Option.some.injEq] at hlk
    subst hlk
    have hp : LimiterEntry.previousWeight ⟨10, 100, [(0, 500)]⟩ 50 = some 500 := rfl
    rw [hp, Option.some.injEq] at hprev
    subst hprev
    decide

/-- C6: weights() is none exactly when the total pooled balance is zero; on
the pooled-asset arm of both swap paths, a post-swap pool with no weights
skips the limiter entirely (the swap commits with the limiter windows
untouched and cannot fail on the limiter), while a pool with weights runs
check_limits_and_update on the full post-swap weight map and the current
block time, and the pool is saved only when that check passes. -/
theorem weights_gate_behavior :
    (∀ pool : TransmuterPool, pool.weights = none ↔ pool.totalPoolAsset = 0) ∧
    (∀ (st : Storage) (sender : String) (tokenIn : Coin) (tokenOutDenom : String)
      (minAmount fee now : Nat) (pool : TransmuterPool) (actual : Coin),
      ¬ tokenIn.amount < minAmount →
      tokenIn.denom ≠ st.alloyedDenom →
      tokenOutDenom ≠ st.alloyedDenom →
      calc_out_given_in st.pool tokenIn tokenOutDenom fee = .ok (pool, actual) →
      actual = ⟨tokenOutDenom, tokenIn.amount⟩ →
      (pool.weights = none →
        swapExactAmountIn st sender tokenIn tokenOutDenom minAmount fee now =
          ({ st with pool := pool },
           .ok { method := "swap_exact_amount_in"
                 messages := [.bankSend sender [⟨tokenOutDenom, tokenIn.amount⟩]]
                 data := some (.swapExactIn tokenIn.amount) })) ∧
      (∀ pairs, pool.weights = some pairs →
        swapExactAmountIn st sender tokenIn tokenOutDenom minAmount fee now =
          (match check_limits_and_update st.limiters pairs now with
           | .error e => (st, .error e)
           | .ok ls =>
             ({ st with pool := pool, limiters := ls },
              .ok { method := "swap_exact_amount_in"
                    messages := [.bankSend sender [⟨tokenOutDenom, tokenIn.amount⟩]]
                    data := some (.swapExactIn tokenIn.amount) })))) ∧
    (∀ (st : Storage) (sender : String) (tokenInDenom : String)
      (maxAmount : Nat) (tokenOut : Coin) (fee now : Nat)
      (pool : TransmuterPool) (actual : Coin),
      ¬ maxAmount < tokenOut.amount →
      tokenInDenom ≠ st.alloyedDenom →
      tokenOut.denom ≠ st.alloyedDenom →
      calc_in_given_out st.pool tokenOut tokenInDenom fee = .ok (pool, actual) →
      actual = ⟨tokenInDenom, tokenOut.amount⟩ →
      (pool.weights = none →
        swapExactAmountOut st sender tokenInDenom maxAmount tokenOut fee now =
          ({ st with pool := pool },
           .ok { method := "swap_exact_amount_out"
                 messages := [.bankSend sender [tokenOut]]
                 data := some (.swapExactOut tokenOut.amount) })) ∧
      (∀ pairs, pool.weights = some pairs →
        swapExactAmountOut st sender tokenInDenom maxAmount tokenOut fee now =
          (match check_limits_and_update st.limiters pairs now with
           | .error e => (st, .error e)
           | .ok ls =>
             ({ st with pool := pool, limiters := ls },
              .ok { method := "swap_exact_amount_out"
                    messages := [.bankSend sender [tokenOut]]
                    data := some (.swapExactOut tokenOut.amount) })))) := by
  refine ⟨?_, ?_, ?_⟩
  · intro pool
    by_cases h : pool.totalPoolAsset = 0 <;> simp [TransmuterPool.weights, h]
  · intro st sender tokenIn tokenOutDenom minAmount fee now pool actual
      hmin hin hout hcalc hact
    subst hact
    constructor
    · intro hw
      simp [swapExactAmountIn, limitersGate, hmin, hin, hout, hcalc, hw]
    · intro pairs hw
      simp [swapExactAmountIn, limitersGate, hmin, hin, hout, hcalc, hw]
  · intro st sender tokenInDenom maxAmount tokenOut fee now pool actual
      hmax hin hout hcalc hact
    subst hact
    constructor
    · intro hw
      simp [swapExactAmountOut, limitersGate, hmax, hin, hout, hcalc, hw]
    · intro pairs hw
      simp [swapExactAmountOut, limitersGate, hmax, hin, hout, hcalc, hw]

/-- Witness for C6: a swap into an all-zero pool commits with no limiter error
and the (nonempty) limiter window table untouched; hypotheses are discharged
at concrete inputs. -/
theorem weights_gate_behavior_witness :
    swapExactAmountIn
        ⟨⟨[⟨"A", 0⟩, ⟨"B", 0⟩]⟩, "C", [("A", ⟨10, 100, [(0, 500)]⟩)]⟩
        "user" ⟨"A", 0⟩ "B" 0 0 7 =
      (⟨⟨[⟨"A", 0⟩, ⟨"B", 0⟩]⟩, "C", [("A", ⟨10, 100, [(0, 500)]⟩)]⟩,
       .ok { method := "swap_exact_amount_in"
             messages := [.bankSend "user" [⟨"B", 0⟩]]
             data := some (.swapExactIn 0) }) :=
  (weights_gate_behavior.2.1
    ⟨⟨[⟨"A", 0⟩, ⟨"B", 0⟩]⟩, "C", [("A", ⟨10, 100, [(0, 500)]⟩)]⟩
    "user" ⟨"A", 0⟩ "B" 0 0 7 ⟨[⟨"A", 0⟩, ⟨"B", 0⟩]⟩ ⟨"B", 0⟩
    (by decide) (by decide) (by decide) (by decide) (by decide)).1 (by decide)

end Transmuter
